import Mathlib

/-!
Verification development for the SEPIA diagnostics module (SepiaPlot.py) and
the Kronecker log-likelihood setup exercised by test_KronSetupLogLik.py.

Samples dictionaries (`model.get_samples()` output) are modelled as ordered
association lists from block names to sample matrices; a sample matrix is a
list of rows (one row per MCMC draw), each row a list of rationals.  Floating
point arithmetic is modelled by exact rational arithmetic, and square roots
(needed by the numpy standard deviation) by `Real.sqrt`.  Matplotlib figures
are modelled by their data content: the series actually plotted, the axis
labels and titles; file saving and styling side effects are not modelled.
-/

/-- A posterior samples dictionary: ordered list of (block name, samples array). -/
abbrev SamplesDict := List (String × List (List ℚ))

/-- Width of a sample block (number of parameter columns), read off the first row
as numpy reads `a.shape[1]` of a rectangular array. -/
def blockWidth (a : List (List ℚ)) : ℕ := (a.headD []).length

/-- Column `j` of a sample block, as `a[:, j]` on a rectangular array. -/
def columnOf (a : List (List ℚ)) (j : ℕ) : List ℚ := a.map (fun row => row.getD j 0)

/-- Sequential effectful map that stops at the first error, mirroring a Python
loop in which an exception aborts the iteration. -/
def mapME {α β : Type} (f : α → Except String β) : List α → Except String (List β)
  | [] => .ok []
  | x :: xs =>
    match f x with
    | .error e => .error e
    | .ok y =>
      match mapME f xs with
      | .error e => .error e
      | .ok ys => .ok (y :: ys)

/-- Decidable equality of Except results, used to evaluate the embeddings at
concrete inputs. -/
instance {ε α : Type} [DecidableEq ε] [DecidableEq α] : DecidableEq (Except ε α) :=
  fun a b =>
    match a, b with
    | .ok x, .ok y => decidable_of_iff (x = y) (by simp)
    | .error x, .error y => decidable_of_iff (x = y) (by simp)
    | .ok _, .error _ => isFalse (fun h => Except.noConfusion h)
    | .error _, .ok _ => isFalse (fun h => Except.noConfusion h)

/-- Python list indexing `l[i]` for a nonnegative index: raises IndexError when
out of range. -/
def pyIdx {α : Type} (l : List α) (i : ℕ) (msg : String) : Except String α :=
  match l.get? i with
  | some x => .ok x
  | none => .error msg

/-- Rational inverse written with `mkRat` so that it evaluates by kernel
reduction (the library `Rat.inv` is irreducible); proved equal to `Inv.inv`
below. -/
def qinv (b : ℚ) : ℚ :=
  mkRat (if 0 ≤ b.num then (b.den : ℤ) else -(b.den : ℤ)) b.num.natAbs

/-- Rational division via `qinv`; proved equal to `HDiv.hDiv` below. -/
def qdiv (a b : ℚ) : ℚ := a * qinv b

/-- Mean of a list of rationals, as `np.mean` (exact arithmetic model). -/
def npMean (xs : List ℚ) : ℚ := qdiv xs.sum xs.length

/-- Population variance, the square of `np.std` (ddof = 0). -/
def npVarQ (xs : List ℚ) : ℚ := qdiv ((xs.map (fun x => (x - npMean xs) ^ 2)).sum) xs.length

/-- `np.std`: population standard deviation (square root of `npVarQ`). -/
noncomputable def npStd (xs : List ℚ) : ℝ := Real.sqrt ((npVarQ xs : ℚ) : ℝ)

/-- Round to the nearest integer with ties to even, the rounding mode of
`np.round` at the integer position. -/
def roundHalfEvenZ (x : ℚ) : ℤ :=
  let f := Int.floor x
  let r := x - f
  if r < mkRat 1 2 then f
  else if mkRat 1 2 < r then f + 1
  else if f % 2 = 0 then f else f + 1

/-- `np.round(x, digits)` on rationals: ties-to-even at the requested decimal. -/
def npRound (digits : ℕ) (x : ℚ) : ℚ :=
  qdiv ((roundHalfEvenZ (x * 10 ^ digits) : ℤ) : ℚ) (10 ^ digits)

/-- Ties-to-even integer rounding on the reals, for values produced by `np.std`. -/
noncomputable def roundHalfEvenR (x : ℝ) : ℤ :=
  let f := Int.floor x
  let r := x - f
  if r < 1 / 2 then f
  else if 1 / 2 < r then f + 1
  else if f % 2 = 0 then f else f + 1

/-- `np.round(x, digits)` on reals. -/
noncomputable def npRoundR (digits : ℕ) (x : ℝ) : ℝ :=
  ((roundHalfEvenR (x * 10 ^ digits) : ℤ) : ℝ) / 10 ^ digits

/-- Insertion of one element into a sorted rational list. -/
def insertSorted (x : ℚ) : List ℚ → List ℚ
  | [] => [x]
  | y :: ys => if x ≤ y then x :: y :: ys else y :: insertSorted x ys

/-- Ascending insertion sort, modelling the sort inside `np.quantile`. -/
def sortQ (xs : List ℚ) : List ℚ := xs.foldr insertSorted []

/-- Value of `np.quantile(xs, q)` with the default linear interpolation method,
assuming `0 ≤ q ≤ 1`. -/
def quantileVal (xs : List ℚ) (q : ℚ) : ℚ :=
  let s := sortQ xs
  let n := s.length
  if n = 0 then 0
  else
    let h : ℚ := q * ((n : ℚ) - 1)
    let lo : ℤ := Int.floor h
    let fr : ℚ := h - (lo : ℚ)
    let a := s.getD lo.toNat 0
    let b := s.getD (lo.toNat + 1) a
    a + fr * (b - a)

/-- `np.quantile`: raises a ValueError when the quantile is outside [0, 1],
otherwise returns the linearly interpolated quantile. -/
def npQuantile (xs : List ℚ) (q : ℚ) : Except String ℚ :=
  if q < 0 ∨ 1 < q then .error "Quantiles must be in the range 0 to 1"
  else .ok (quantileVal xs q)

/-- Integer-truncated `np.linspace(s, e, num).astype(int)` for nonnegative
endpoints: entry `i` is `s + trunc(i*(e-s)/(num-1))`. -/
def linspaceN (s e num : ℕ) : List ℕ :=
  (List.range num).map (fun i => s + i * (e - s) / (num - 1))

/-- `np.arange(s, e)` for nonnegative integer endpoints. -/
def arangeN (s e : ℕ) : List ℕ := (List.range (e - s)).map (fun i => s + i)

/-- Insertion of one element into a sorted list of naturals. -/
def insertSortedN (x : ℕ) : List ℕ → List ℕ
  | [] => [x]
  | y :: ys => if x ≤ y then x :: y :: ys else y :: insertSortedN x ys

/-- Ascending insertion sort on naturals. -/
def sortN (xs : List ℕ) : List ℕ := xs.foldr insertSortedN []

/-- Remove adjacent duplicates from a sorted list. -/
def dedupAdj : List ℕ → List ℕ
  | [] => []
  | [x] => [x]
  | x :: y :: r => if x = y then dedupAdj (y :: r) else x :: dedupAdj (y :: r)

/-- `np.unique`: sort ascending and remove duplicates. -/
def npUnique (xs : List ℕ) : List ℕ := dedupAdj (sortN xs)

/-- Transpose of a rectangular samples array, as `a.T`. -/
def transposeL (a : List (List ℚ)) : List (List ℚ) :=
  (List.range (blockWidth a)).map (fun j => columnOf a j)

/-- Modelled from the spec: the model's numeric substrate (SepiaModel.num is not
under src/), recording structural sizes p, q, pu and the sim_only flag. -/
structure SepiaNum where
  p : ℕ
  q : ℕ
  pu : ℕ
  sim_only : Bool
deriving DecidableEq

/-- Modelled from the spec: the model's parameter registry (SepiaModel.params is
not under src/): a list of named parameter blocks, each block paired with its
accumulated MCMC draws, as produced by `mcmc_to_array` on each block. -/
structure SepiaParams where
  mcmcList : List (String × List (List ℚ))
deriving DecidableEq

/-- Modelled from the spec: a SepiaModel as seen by the diagnostics consumers
(the class itself is not under src/): numeric substrate, parameter blocks with
their draw histories, and the number of MCMC samples taken. -/
structure SepiaModel where
  num : SepiaNum
  params : SepiaParams
  numSamples : ℕ
deriving DecidableEq

/-- Modelled from the spec: `model.get_num_samples()`, the number of posterior
draws available per block. -/
def SepiaModel.get_num_samples (m : SepiaModel) : ℕ := m.numSamples

/-- Result of the autocorrelation diagnostic: the flattened chain it was
computed over, the requested lag count, the significance level, and the
empirical autocorrelation values per parameter. -/
structure AcfResult where
  chain : List (List ℚ)
  nlags : ℕ
  alpha : ℚ
  acfValues : List (List ℚ)
deriving DecidableEq

/-- Empirical autocorrelation of one series at lag `k`:
`sum_t (x_t - mean)(x_{t+k} - mean) / sum_t (x_t - mean)^2`. -/
def autocorr (x : List ℚ) (k : ℕ) : ℚ :=
  let mu := npMean x
  let denom := (x.map (fun v => (v - mu) ^ 2)).sum
  let numer := ((List.range (x.length - k)).map
    (fun t => (x.getD t 0 - mu) * (x.getD (t + k) 0 - mu))).sum
  if denom = 0 then 0 else qdiv numer denom

/-- Modelled from the spec: `SepiaModel.acf` (not under src/) computes the
empirical autocorrelation per parameter up to the requested lag, with a
significance level derived from alpha; the returned record keeps the chain,
the lag count, alpha, and the per-parameter autocorrelations. -/
def acfFun (chain : List (List ℚ)) (nlags : ℕ) (alpha : ℚ) : AcfResult :=
  ⟨chain, nlags, alpha, chain.map (fun x => (List.range (nlags + 1)).map (fun k => autocorr x k))⟩

/-- `plot_acf(model, nlags, nburn, alpha)` from SepiaPlot.py.  Validates the lag
count against the number of available samples, validates alpha, prints and
returns None on a sim-only model, otherwise extracts the theta chain
(`mcmc_to_array(flat=True).T`) and computes the autocorrelation.  The `save`
argument (file I/O) is not modelled.  Note that `nburn` is accepted but never
used by the body. -/
def plot_acf (m : SepiaModel) (nlags : ℕ) (nburn : ℕ) (alpha : ℚ) :
    Except String (Option AcfResult) :=
  if m.get_num_samples < nlags then
    .error "plot_acf: must have more samples than requested lag size"
  else if alpha ≤ 0 ∨ 1 ≤ alpha then .error "alpha must be in (0,1)"
  else if m.num.sim_only then .ok none
  else
    match (m.params.mcmcList.filter (fun p => p.1 == "theta")).getLast? with
    | none => .error "NameError: chain"
    | some p => .ok (some (acfFun (transposeL p.2) nlags alpha))

/-- Data content of the figure returned by `theta_pairs`: the (thinned) sampled
theta values plotted, the column names used, the axis limits, and the reference
values drawn. -/
structure PairsFig where
  names : List String
  data : List (List ℚ)
  lims : Option (List (ℚ × ℚ))
  refs : Option (List ℚ)
deriving DecidableEq

/-- Thinning indices of `theta_pairs`:
`np.linspace(0, n_samp-1, min(n_samp-1, 1000), dtype=int)`. -/
def thinIdx (n_samp : ℕ) : List ℕ := linspaceN 0 (n_samp - 1) (min (n_samp - 1) 1000)

/-- Assemble the pairs-plot figure from the selected theta array: thin to at
most 1000 samples (an out-of-range thinning index is an IndexError) and record
names, limits and reference values. -/
def buildPairs (theta : List (List ℚ)) (names : List String)
    (lims : Option (List (ℚ × ℚ))) (refs : Option (List ℚ)) :
    Except String (Option PairsFig) :=
  match mapME (fun t => pyIdx theta t "IndexError: thin index") (thinIdx theta.length) with
  | .error e => .error e
  | .ok rows => .ok (some ⟨names, rows, lims, refs⟩)

/-- `theta_pairs(samples_dict, design_names, native, lims, theta_ref)` from
SepiaPlot.py.  Prints and returns None when there is no theta block; selects
`theta` or `theta_native` according to `native` (a missing `theta_native` is a
KeyError); defaults `lims` to [0,1] per theta when not native; rejects a
design-name list of the wrong length; otherwise builds the pairs figure.  The
`save` argument (file I/O) is not modelled. -/
def theta_pairs (s : SamplesDict) (design_names : Option (List String)) (native : Bool)
    (lims0 : Option (List (ℚ × ℚ))) (theta_ref : Option (List ℚ)) :
    Except String (Option PairsFig) :=
  if (List.lookup "theta" s).isNone then .ok none
  else
    match (if native then List.lookup "theta_native" s else List.lookup "theta" s) with
    | none => .error "KeyError: theta_native"
    | some theta =>
      let n_theta := blockWidth theta
      let lims := if native = false ∧ lims0.isNone then
          some ((List.range n_theta).map fun _ => ((0 : ℚ), (1 : ℚ)))
        else lims0
      match design_names with
      | some l =>
        if l.length ≠ n_theta then .error "Design names wrong length"
        else buildPairs theta l lims theta_ref
      | none =>
        buildPairs theta ((List.range n_theta).map fun i => "theta_" ++ toString (i + 1))
          lims theta_ref

/-- One plotted line of a trace plot: its legend label (if any) and the sample
values drawn. -/
structure TraceLine where
  label : Option String
  ys : List ℚ
deriving DecidableEq

/-- One axis of a trace plot figure: the parameter block it came from, the
y-axis label, and the lines drawn on it. -/
structure TracePanel where
  key : String
  ylabel : String
  lines : List TraceLine
deriving DecidableEq

/-- Entry `a[t, j]` of a sample block, with IndexError semantics. -/
def colAt (a : List (List ℚ)) (t j : ℕ) : Except String ℚ :=
  match a.get? t with
  | none => .error "IndexError: sample index"
  | some row =>
    match row.get? j with
    | none => .error "IndexError: column index"
    | some v => .ok v

/-- The series `a[plot_idx, j]` plotted for one parameter column. -/
def seriesAt (a : List (List ℚ)) (idx : List ℕ) (j : ℕ) : Except String (List ℚ) :=
  mapME (fun t => colAt a t j) idx

/-- One axis of the grouped (`by_group=True`) trace plot, for the enumerated
block `(i, k, a)`: errors when the axis index overflows the allocated axes,
draws min(width, max_print) labelled lines when the block has more than one
column (labels from `theta_names[j]` only for the first block), otherwise a
single unlabelled line with the block name (or `theta_names[0]` for the first
block) as y-label. -/
def groupPanel (theta_names : Option (List String)) (plot_idx : List ℕ) (max_print : ℕ)
    (n_axes i : ℕ) (k : String) (a : List (List ℚ)) : Except String TracePanel :=
  if n_axes ≤ i then .error "IndexError: axs"
  else
    let n_lines := min (blockWidth a) max_print
    if 1 < n_lines then
      match mapME (fun j =>
        match seriesAt a plot_idx j with
        | .error e => .error e
        | .ok ys =>
          match theta_names with
          | some l =>
            if i = 0 then
              match pyIdx l j "IndexError: theta names" with
              | .error e => .error e
              | .ok lab => .ok (⟨some lab, ys⟩ : TraceLine)
            else .ok (⟨some (k ++ toString (j + 1)), ys⟩ : TraceLine)
          | none => .ok (⟨some (k ++ toString (j + 1)), ys⟩ : TraceLine)) (List.range n_lines) with
      | .error e => .error e
      | .ok lines => .ok ⟨k, k, lines⟩
    else
      match seriesAt a plot_idx 0 with
      | .error e => .error e
      | .ok ys =>
        match theta_names with
        | some l =>
          if i = 0 then
            match pyIdx l 0 "IndexError: theta names" with
            | .error e => .error e
            | .ok lab => .ok ⟨k, lab, [⟨none, ys⟩]⟩
          else .ok ⟨k, k, [⟨none, ys⟩]⟩
        | none => .ok ⟨k, k, [⟨none, ys⟩]⟩

/-- The grouped trace plot loop: enumerate the blocks, skip `theta_native`
(the enumeration index still advances), and build one panel per block. -/
def byGroupPanels (theta_names : Option (List String)) (plot_idx : List ℕ)
    (max_print n_axes : ℕ) (i : ℕ) : SamplesDict → Except String (List TracePanel)
  | [] => .ok []
  | (k, a) :: rest =>
    if k = "theta_native" then byGroupPanels theta_names plot_idx max_print n_axes (i + 1) rest
    else
      match groupPanel theta_names plot_idx max_print n_axes i k a with
      | .error e => .error e
      | .ok p =>
        match byGroupPanels theta_names plot_idx max_print n_axes (i + 1) rest with
        | .error e => .error e
        | .ok ps => .ok (p :: ps)

/-- Panels of one block in the ungrouped (`by_group=False`) trace plot: one
axis per column (capped at max_print), labelled `theta_names[j]` for the theta
block when names are given, else `k_(j+1)`; a single-column block gets one axis
labelled `theta_names[0]` for theta, else `k`. -/
def flatBlockPanels (theta_names : Option (List String)) (plot_idx : List ℕ)
    (max_print : ℕ) (k : String) (a : List (List ℚ)) : Except String (List TracePanel) :=
  let n_theta := min (blockWidth a) max_print
  if 1 < n_theta then
    mapME (fun j =>
      match seriesAt a plot_idx j with
      | .error e => .error e
      | .ok ys =>
        match theta_names with
        | some l =>
          if k = "theta" then
            match pyIdx l j "IndexError: theta names" with
            | .error e => .error e
            | .ok lab => .ok (⟨k, lab, [⟨none, ys⟩]⟩ : TracePanel)
          else .ok (⟨k, k ++ "_" ++ toString (j + 1), [⟨none, ys⟩]⟩ : TracePanel)
        | none => .ok (⟨k, k ++ "_" ++ toString (j + 1), [⟨none, ys⟩]⟩ : TracePanel))
      (List.range n_theta)
  else
    match seriesAt a plot_idx 0 with
    | .error e => .error e
    | .ok ys =>
      match theta_names with
      | some l =>
        if k = "theta" then
          match pyIdx l 0 "IndexError: theta names" with
          | .error e => .error e
          | .ok lab => .ok [⟨k, lab, [⟨none, ys⟩]⟩]
        else .ok [⟨k, k, [⟨none, ys⟩]⟩]
      | none => .ok [⟨k, k, [⟨none, ys⟩]⟩]

/-- The ungrouped trace plot loop: iterate the blocks, skip `theta_native`,
concatenate each block's per-column panels. -/
def flatPanels (theta_names : Option (List String)) (plot_idx : List ℕ)
    (max_print : ℕ) : SamplesDict → Except String (List TracePanel)
  | [] => .ok []
  | (k, a) :: rest =>
    if k = "theta_native" then flatPanels theta_names plot_idx max_print rest
    else
      match flatBlockPanels theta_names plot_idx max_print k a with
      | .error e => .error e
      | .ok ps =>
        match flatPanels theta_names plot_idx max_print rest with
        | .error e => .error e
        | .ok rs => .ok (ps ++ rs)

/-- `mcmc_trace(samples_dict, theta_names, start, end, n_to_plot, by_group,
max_print)` from SepiaPlot.py.  Reads the sample count off the `lamUz` block
(KeyError when absent), clamps `n_to_plot`, defaults `end` to `n_samples - 1`,
validates the start and end indices, selects the indices to plot (an
`np.unique`d integer linspace when the range exceeds `n_to_plot`, else
`np.arange(start, end)`), and draws either grouped or per-column panels,
skipping `theta_native` in both modes.  The `save` argument is not modelled. -/
def mcmc_trace (s : SamplesDict) (theta_names : Option (List String)) (start : ℤ)
    (endOpt : Option ℤ) (n_to_plot : ℕ) (by_group : Bool) (max_print : ℕ) :
    Except String (List TracePanel) :=
  match List.lookup "lamUz" s with
  | none => .error "KeyError: lamUz"
  | some lam =>
    let n_samples : ℕ := lam.length
    let ntp := if n_samples < n_to_plot then n_samples else n_to_plot
    let endv : ℤ := endOpt.getD ((n_samples : ℤ) - 1)
    if start < 0 then .error "invalid start index"
    else if endv < start ∨ endv < 0 ∨ (n_samples : ℤ) < endv then .error "invalid end index"
    else
      let plot_idx : List ℕ :=
        if (ntp : ℤ) < endv - start then npUnique (linspaceN start.toNat endv.toNat ntp)
        else arangeN start.toNat endv.toNat
      if by_group then
        let n_axes := if (List.lookup "theta_native" s).isSome then s.length - 1 else s.length
        byGroupPanels theta_names plot_idx max_print n_axes 0 s
      else flatPanels theta_names plot_idx max_print s

/-- One row of the `param_stats` table: the row label and the rounded mean,
standard deviation and two quantiles of one parameter column. -/
structure StatRow where
  key : String
  mean : ℚ
  sd : ℝ
  q1v : ℚ
  q2v : ℚ

/-- The `param_stats` result table, as the five parallel lists the Python code
accumulates before assembling the DataFrame. -/
structure StatsTable where
  index : List String
  means : List ℚ
  sds : List ℝ
  q1s : List ℚ
  q2s : List ℚ

/-- One parameter column visited by the `param_stats` loop: block name, block
enumeration index, column index, block width and the column data. -/
structure StatCol where
  key : String
  blockIdx : ℕ
  colIdx : ℕ
  blockWidth : ℕ
  col : List ℚ
deriving DecidableEq

/-- The columns visited by the nested `param_stats` loop, starting the block
enumeration at `i`. -/
def statColsGo (i : ℕ) : SamplesDict → List StatCol
  | [] => []
  | (k, a) :: rest =>
    ((List.range (blockWidth a)).map fun j => ⟨k, i, j, blockWidth a, columnOf a j⟩)
      ++ statColsGo (i + 1) rest

/-- All parameter columns visited by `param_stats`, in loop order: every column
of every block, `theta_native` included. -/
def statCols (s : SamplesDict) : List StatCol := statColsGo 0 s

/-- Row label of a column outside the theta-names override: `k_(j+1)` for a
multi-column block, `k` for a single-column block. -/
def defaultKey (c : StatCol) : String :=
  if 1 < c.blockWidth then c.key ++ "_" ++ toString (c.colIdx + 1) else c.key

/-- Row label chosen by `param_stats`: `theta_names[j]` for the first block
when names are given (an out-of-range access is an IndexError), otherwise the
default label. -/
def keyOf (theta_names : Option (List String)) (c : StatCol) : Except String String :=
  match theta_names with
  | some l =>
    if c.blockIdx = 0 then pyIdx l c.colIdx "IndexError: theta names"
    else .ok (defaultKey c)
  | none => .ok (defaultKey c)

/-- The statistics computed for one column in one `param_stats` iteration:
rounded mean, rounded standard deviation, the two rounded quantiles (either
quantile call can raise), and the row label. -/
noncomputable def colStat (theta_names : Option (List String)) (q1 q2 : ℚ) (digits : ℕ)
    (c : StatCol) : Except String StatRow :=
  match npQuantile c.col q1 with
  | .error e => .error e
  | .ok v1 =>
    match npQuantile c.col q2 with
    | .error e => .error e
    | .ok v2 =>
      match keyOf theta_names c with
      | .error e => .error e
      | .ok key =>
        .ok ⟨key, npRound digits (npMean c.col), npRoundR digits (npStd c.col),
          npRound digits v1, npRound digits v2⟩

/-- The guard at the top of `param_stats`: when a theta block exists and
theta_names is given with the wrong length, the function prints a message and
returns None. -/
def thetaNamesReject (s : SamplesDict) (theta_names : Option (List String)) : Bool :=
  match List.lookup "theta" s, theta_names with
  | some t, some l => l.length ≠ blockWidth t
  | _, _ => false

/-- `param_stats(samples_dict, theta_names, q1, q2, digits)` from SepiaPlot.py.
After the theta-names length guard, loops over every column of every block
(`theta_native` is not skipped), computing the rounded mean, std and the two
rounded quantiles per column, and assembles the table; a quantile outside
[0, 1] surfaces as the ValueError `np.quantile` raises mid-loop. -/
noncomputable def param_stats (s : SamplesDict) (theta_names : Option (List String))
    (q1 q2 : ℚ) (digits : ℕ) : Except String (Option StatsTable) :=
  if thetaNamesReject s theta_names then .ok none
  else
    match mapME (colStat theta_names q1 q2 digits) (statCols s) with
    | .error e => .error e
    | .ok rows =>
      .ok (some ⟨rows.map StatRow.key, rows.map StatRow.mean, rows.map StatRow.sd,
        rows.map StatRow.q1v, rows.map StatRow.q2v⟩)

/-- Observable computation events of the `param_stats` loop, recording which
statistics get computed and where a quantile error is raised. -/
inductive PEvent where
  | meanEv (k : String) (j : ℕ)
  | sdEv (k : String) (j : ℕ)
  | quantEv (k : String) (j : ℕ) (q : ℚ)
  | quantErrEv (k : String) (j : ℕ) (q : ℚ)
deriving DecidableEq

/-- Events of one `param_stats` iteration, in source order (mean, std, q1, q2),
plus a flag telling whether the iteration completed. -/
def colEvents (q1 q2 : ℚ) (c : StatCol) : List PEvent × Bool :=
  let e0 := [PEvent.meanEv c.key c.colIdx, PEvent.sdEv c.key c.colIdx]
  if q1 < 0 ∨ 1 < q1 then (e0 ++ [PEvent.quantErrEv c.key c.colIdx q1], false)
  else if q2 < 0 ∨ 1 < q2 then
    (e0 ++ [PEvent.quantEv c.key c.colIdx q1, PEvent.quantErrEv c.key c.colIdx q2], false)
  else (e0 ++ [PEvent.quantEv c.key c.colIdx q1, PEvent.quantEv c.key c.colIdx q2], true)

/-- Event trace of the `param_stats` loop: iterations run in order and stop at
the first quantile error. -/
def eventsGo (q1 q2 : ℚ) : List StatCol → List PEvent
  | [] => []
  | c :: rest =>
    let (es, ok) := colEvents q1 q2 c
    if ok then es ++ eventsGo q1 q2 rest else es

/-- Computation events observable during a `param_stats` call: nothing when the
theta-names guard returns early, otherwise the loop trace. -/
def paramStatsEvents (s : SamplesDict) (theta_names : Option (List String))
    (q1 q2 : ℚ) : List PEvent :=
  if thetaNamesReject s theta_names then [] else eventsGo q1 q2 (statCols s)

/-- One axis of the `rho_box_plots` figure: the transformed lengthscale values
box-plotted on it, the tick labels, and the title. -/
structure BoxPanel where
  data : List (List ℝ)
  labels : Option (List String)
  title : String

/-- The panels of `rho_box_plots`: `ru = np.exp(-betaU/4)`, one panel per
principal component `i` showing columns `(p+q)*i` to `(p+q)*i + (p+q)` of
`ru`. -/
noncomputable def rhoPanels (num : SepiaNum) (labels : Option (List String))
    (bu : List (List ℚ)) : List BoxPanel :=
  let ru := bu.map (fun row => row.map (fun (b : ℚ) => Real.exp (-(b : ℝ) / 4)))
  (List.range num.pu).map (fun i =>
    ⟨ru.map (fun row => (row.drop ((num.p + num.q) * i)).take (num.p + num.q)),
      labels, "PC " ++ toString (i + 1)⟩)

/-- `rho_box_plots(model, labels)` from SepiaPlot.py: reads the betaU draws
from the model's parameter blocks (KeyError when absent) and box-plots
`exp(-betaU/4)` grouped into p+q columns per principal component. -/
noncomputable def rho_box_plots (m : SepiaModel) (labels : Option (List String)) :
    Except String (List BoxPanel) :=
  match List.lookup "betaU" m.params.mcmcList with
  | none => .error "KeyError: betaU"
  | some bu => .ok (rhoPanels m.num labels bu)

/-- Modelled from the spec: the joint design implied by two separable design
factors (SepiaData's separable design handling is not under src/): the
Cartesian product with the first factor varying slowest, columns of the first
factor followed by columns of the second. -/
def prodDesign {α : Type} {n1 n2 d1 d2 : ℕ} (A : Matrix (Fin n1) (Fin d1) α)
    (B : Matrix (Fin n2) (Fin d2) α) : Matrix (Fin (n1 * n2)) (Fin (d1 + d2)) α :=
  Matrix.of fun r c =>
    Fin.addCases (fun c1 => A (Fin.divNat r) c1) (fun c2 => B (Fin.modNat r) c2) c

/-- Modelled from the spec: the power-exponential (Gaussian) correlation matrix
over a design, `R(x, y) = exp(-sum_k beta_k (x_k - y_k)^2)`, equivalently
`prod_k rho_k^(4 d_k^2)` with `rho = exp(-beta/4)` (the covariance builder in
SepiaLogLik is not under src/). -/
noncomputable def corrMat {n d : ℕ} (X : Matrix (Fin n) (Fin d) ℝ) (beta : Fin d → ℝ) :
    Matrix (Fin n) (Fin n) ℝ :=
  Matrix.of fun a b => Real.exp (-(∑ k, beta k * (X a k - X b k) ^ 2))

/-- Modelled from the spec: the Kronecker product of two factor covariance
matrices, indexed with the first factor varying slowest, as used by the
separable covariance evaluator. -/
noncomputable def kronF {n1 n2 : ℕ} (M : Matrix (Fin n1) (Fin n1) ℝ)
    (N : Matrix (Fin n2) (Fin n2) ℝ) : Matrix (Fin (n1 * n2)) (Fin (n1 * n2)) ℝ :=
  Matrix.of fun r s => M (Fin.divNat r) (Fin.divNat s) * N (Fin.modNat r) (Fin.modNat s)

/-- Modelled from the spec: multivariate-normal log density core used by the
log-likelihood: quadratic form against the covariance plus log-determinant and
normalizing constant. -/
noncomputable def llMVN {n : ℕ} (S : Matrix (Fin n) (Fin n) ℝ) (w : Fin n → ℝ) : ℝ :=
  -(1 / 2) * (Real.log S.det + Matrix.dotProduct w (S⁻¹.mulVec w)
    + (n : ℝ) * Real.log (2 * Real.pi))

/-- Modelled from the spec: per-component GP covariance, the correlation matrix
scaled by the inverse marginal precision plus a diagonal nugget. -/
noncomputable def componentCov {n : ℕ} (R : Matrix (Fin n) (Fin n) ℝ) (lam nug : ℝ) :
    Matrix (Fin n) (Fin n) ℝ :=
  (1 / lam) • R + nug • 1

/-- Modelled from the spec: emulator-only `compute_log_lik` on a joint (dense)
design: sum over basis components of the MVN log density of that component's
basis weights under its GP covariance. -/
noncomputable def emulatorLogLik {n d pu : ℕ} (X : Matrix (Fin n) (Fin d) ℝ)
    (W : Matrix (Fin n) (Fin pu) ℝ) (beta : Fin pu → Fin d → ℝ)
    (lam : Fin pu → ℝ) (nug : ℝ) : ℝ :=
  ∑ i, llMVN (componentCov (corrMat X (beta i)) (lam i) nug) (fun r => W r i)

/-- Modelled from the spec: emulator-only `compute_log_lik` on a two-factor
separable design: the same sum, but each component's correlation matrix is the
Kronecker product of the per-factor correlation matrices. -/
noncomputable def emulatorLogLikSep {n1 n2 d1 d2 pu : ℕ}
    (A : Matrix (Fin n1) (Fin d1) ℝ) (B : Matrix (Fin n2) (Fin d2) ℝ)
    (W : Matrix (Fin (n1 * n2)) (Fin pu) ℝ) (beta : Fin pu → Fin (d1 + d2) → ℝ)
    (lam : Fin pu → ℝ) (nug : ℝ) : ℝ :=
  ∑ i, llMVN (componentCov
    (kronF (corrMat A (fun k => beta i (Fin.castAdd d2 k)))
           (corrMat B (fun k => beta i (Fin.natAdd d1 k)))) (lam i) nug)
    (fun r => W r i)

/-- Modelled from the spec: columnwise standardization of the simulation
output, `(y - column mean) / column standard deviation` (the Standardizer is
not under src/). -/
noncomputable def standardizeCols {n m : ℕ} (Y : Matrix (Fin n) (Fin m) ℝ) :
    Matrix (Fin n) (Fin m) ℝ :=
  Matrix.of fun r c =>
    let mu := (∑ t, Y t c) / (n : ℝ)
    (Y r c - mu) / Real.sqrt ((∑ t, (Y t c - mu) ^ 2) / (n : ℝ))

/-- Modelled from the spec: basis weights `W = Y K (K^T K)^(-1)` (the Basis
Transform is not under src/). -/
noncomputable def basisWeights {n m pu : ℕ} (Y : Matrix (Fin n) (Fin m) ℝ)
    (K : Matrix (Fin m) (Fin pu) ℝ) : Matrix (Fin n) (Fin pu) ℝ :=
  Y * K * (K.transpose * K)⁻¹

/-- Cast a rational matrix to a real matrix. -/
def castM {n d : ℕ} (M : Matrix (Fin n) (Fin d) ℚ) : Matrix (Fin n) (Fin d) ℝ :=
  M.map (fun q => (q : ℝ))

/-- First simulation design factor of test_KronSetupLogLik.py:
`x1 = hstack(linspace(0,1,3), linspace(1,0,3))`. -/
def x1Q : Matrix (Fin 3) (Fin 2) ℚ := !![0, 1; 1/2, 1/2; 1, 0]

/-- Second simulation design factor of test_KronSetupLogLik.py:
`x2 = linspace(0,1,4)`. -/
def x2Q : Matrix (Fin 4) (Fin 1) ℚ := !![0; 1/3; 2/3; 1]

/-- Row index of `x1` used by joint design row `n`: the meshgrid column-major
flattening gives `r1.reshape(-1, order=F)[n] = n // 4`. -/
def r1flat (n : Fin 12) : Fin 3 :=
  ⟨n.val / 4, Nat.div_lt_of_lt_mul (by omega)⟩

/-- Row index of `x2` used by joint design row `n`:
`r2.reshape(-1, order=F)[n] = n % 4`. -/
def r2flat (n : Fin 12) : Fin 4 := ⟨n.val % 4, Nat.mod_lt _ (by omega)⟩

/-- The joint simulation design of the test:
`x_sim = hstack(x1[r1flat, :], x2[r2flat, :])`. -/
def xsimQ : Matrix (Fin 12) (Fin 3) ℚ :=
  Matrix.of fun n c =>
    Fin.addCases (fun c1 => x1Q (r1flat n) c1) (fun c2 => x2Q (r2flat n) c2) c

/-- The simulation output of the test:
`y_sim = column_stack(x0/2 + (x0+x1+x2)^2, linspace(0, 1, 12))`. -/
def ysimQ : Matrix (Fin 12) (Fin 2) ℚ :=
  Matrix.of fun n c =>
    if c = 0 then xsimQ n 0 / 2 + (xsimQ n 0 + xsimQ n 1 + xsimQ n 2) ^ 2
    else (n.val : ℚ) / 11

/-- Emulator basis weights of the test scenario: the columnwise-standardized
simulation output projected onto the identity 2x2 K basis. -/
noncomputable def Wem : Matrix (Fin 12) (Fin 2) ℝ :=
  basisWeights (standardizeCols (castM ysimQ)) (1 : Matrix (Fin 2) (Fin 2) ℝ)

/-- Modelled from the spec: `compute_log_lik` on the emulator-only model of the
test with the design encoded as the single joint matrix `x_sim`. -/
noncomputable def compute_log_lik_em_joint (beta : Fin 2 → Fin 3 → ℝ)
    (lam : Fin 2 → ℝ) (nug : ℝ) : ℝ :=
  emulatorLogLik (castM xsimQ) Wem beta lam nug

/-- Modelled from the spec: `compute_log_lik` on the emulator-only model of the
test with the design encoded as the separable factor list `[x1, x2]`. -/
noncomputable def compute_log_lik_em_sep (beta : Fin 2 → Fin 3 → ℝ)
    (lam : Fin 2 → ℝ) (nug : ℝ) : ℝ :=
  emulatorLogLikSep (castM x1Q) (castM x2Q) Wem beta lam nug

/-- Modelled from the spec: the full GP input design of the calibration model,
simulation design rows stacked above observation rows, the observation rows
getting the current calibration parameter values in the t columns. -/
noncomputable def fullDesign {n no dx dt : ℕ} (J : Matrix (Fin n) (Fin (dx + dt)) ℝ)
    (Xobs : Matrix (Fin no) (Fin dx) ℝ) (theta : Fin dt → ℝ) :
    Matrix (Fin (n + no)) (Fin (dx + dt)) ℝ :=
  Matrix.of fun r c =>
    Fin.addCases (fun rs => J rs c)
      (fun ro => Fin.addCases (fun cx => Xobs ro cx) (fun ct => theta ct) c) r

/-- Modelled from the spec: the calibration-model correlation matrix with the
simulation-simulation block supplied separately (dense in the joint encoding,
Kronecker-factored in the separable encoding); cross and observation blocks
come from the dense correlation over the full design. -/
noncomputable def mixedCorr {n no : ℕ} (simCorr : Matrix (Fin n) (Fin n) ℝ)
    (full : Matrix (Fin (n + no)) (Fin (n + no)) ℝ) :
    Matrix (Fin (n + no)) (Fin (n + no)) ℝ :=
  Matrix.of fun r s =>
    Fin.addCases
      (fun rs => Fin.addCases (fun ss => simCorr rs ss) (fun _ => full r s) s)
      (fun _ => full r s) r

/-- Modelled from the spec: observation-error variance on the observation block
of the full covariance. -/
noncomputable def obsErr {n no : ℕ} (lamOsInv : ℝ) :
    Matrix (Fin (n + no)) (Fin (n + no)) ℝ :=
  Matrix.diagonal (Fin.addCases (fun _ => 0) (fun _ => lamOsInv))

/-- Modelled from the spec: calibration-model `compute_log_lik`: for each K
basis component, the MVN log density of the stacked simulation and observation
basis weights under the mixed covariance (per-component simulation correlation
block, cross and observation blocks from the full design, nugget, observation
error variance), plus the discrepancy-basis likelihood term. -/
noncomputable def calLL {n no dx dt pu pv : ℕ}
    (simCorrFn : Fin pu → Matrix (Fin n) (Fin n) ℝ)
    (J : Matrix (Fin n) (Fin (dx + dt)) ℝ) (Xobs : Matrix (Fin no) (Fin dx) ℝ)
    (theta : Fin dt → ℝ) (beta : Fin pu → Fin (dx + dt) → ℝ) (lam : Fin pu → ℝ)
    (nug lamOsInv : ℝ) (Wfull : Fin pu → Fin (n + no) → ℝ)
    (V : Fin pv → Fin no → ℝ) (lamV : Fin pv → ℝ) : ℝ :=
  (∑ i, llMVN
    ((1 / lam i) • mixedCorr (simCorrFn i) (corrMat (fullDesign J Xobs theta) (beta i))
      + nug • 1 + obsErr lamOsInv)
    (Wfull i))
  + ∑ j, llMVN ((1 / lamV j) • (1 : Matrix (Fin no) (Fin no) ℝ)) (V j)

/-- The constant first calibration factor of the test: `np.array(0.5)`. -/
def f0Q : Matrix (Fin 1) (Fin 1) ℚ := !![1/2]

/-- The dense calibration GP input design of the test:
`hstack(x_sim_cal, t_sim_cal)` with `x_sim_cal = hstack(0.5*ones, x_sim[:, :1])`
and `t_sim_cal = x_sim[:, 1:]`. -/
def xsimCalQ : Matrix (Fin 12) (Fin 4) ℚ :=
  Matrix.of fun n c =>
    if c.val = 0 then 1/2
    else if c.val = 1 then xsimQ n 0
    else if c.val = 2 then xsimQ n 1
    else xsimQ n 2

/-- The observation design of the test: `x_obs = ones(3,2) * [0.5, 0.75, 0.25]^T`. -/
def xobsQ : Matrix (Fin 3) (Fin 2) ℚ := !![1/2, 1/2; 3/4, 3/4; 1/4, 1/4]

/-- The observation data of the test: `y_obs`. -/
def yobsQ : Matrix (Fin 3) (Fin 2) ℚ := !![-1/10, 1/10; -1/5, 3/10; 1/10, 0]

/-- Observation basis weights of the test scenario, identity K basis. -/
noncomputable def uW : Matrix (Fin 3) (Fin 2) ℝ :=
  basisWeights (castM yobsQ) (1 : Matrix (Fin 2) (Fin 2) ℝ)

/-- Discrepancy basis weights of the test scenario, identity D basis. -/
noncomputable def vW : Fin 2 → Fin 3 → ℝ :=
  fun j o => basisWeights (castM yobsQ) (1 : Matrix (Fin 2) (Fin 2) ℝ) o j

/-- Stacked simulation and observation basis weights of the test scenario:
the calibration model of the test reuses the emulator-standardized `y_sim_std`
(identity K basis), so the simulation weights are `Wem`. -/
noncomputable def WfullCal : Fin 2 → Fin (12 + 3) → ℝ :=
  fun i => Fin.addCases (motive := fun _ => ℝ) (fun r => Wem r i) (fun o => uW o i)

/-- Modelled from the spec: `compute_log_lik` on the calibration model of the
test with the simulation design encoded as the single joint matrix. -/
noncomputable def compute_log_lik_cal_joint (theta : Fin 2 → ℝ)
    (beta : Fin 2 → Fin 4 → ℝ) (lam : Fin 2 → ℝ) (nug lamOsInv : ℝ)
    (lamV : Fin 2 → ℝ) : ℝ :=
  @calLL 12 3 2 2 2 2 (fun i => corrMat (castM xsimCalQ) (beta i)) (castM xsimCalQ)
    (castM xobsQ) theta beta lam nug lamOsInv WfullCal vW lamV

/-- Modelled from the spec: `compute_log_lik` on the calibration model of the
test with the simulation design encoded as the separable factor list
`[0.5, x1, x2]`: the simulation covariance block is the Kronecker product of
the per-factor correlation matrices, and the dense code paths use the implied
joint design. -/
noncomputable def compute_log_lik_cal_sep (theta : Fin 2 → ℝ)
    (beta : Fin 2 → Fin 4 → ℝ) (lam : Fin 2 → ℝ) (nug lamOsInv : ℝ)
    (lamV : Fin 2 → ℝ) : ℝ :=
  @calLL 12 3 2 2 2 2
    (fun i => kronF (corrMat (castM f0Q) (fun k => beta i (Fin.castAdd 3 k)))
      (kronF (corrMat (castM x1Q) (fun k => beta i (Fin.natAdd 1 (Fin.castAdd 1 k))))
             (corrMat (castM x2Q) (fun k => beta i (Fin.natAdd 1 (Fin.natAdd 2 k))))))
    (prodDesign (castM f0Q) (prodDesign (castM x1Q) (castM x2Q)))
    (castM xobsQ) theta beta lam nug lamOsInv WfullCal vW lamV

/-- A model with three theta draws and no observation data missing: used to
exercise the validation and autocorrelation paths of `plot_acf`. -/
def cmValid : SepiaModel := ⟨⟨1, 1, 1, false⟩, ⟨[("theta", [[0], [1], [0]])]⟩, 3⟩

/-- A sim-only model with three draws of a hyperparameter block. -/
def cmSim : SepiaModel := ⟨⟨1, 1, 1, true⟩, ⟨[("lamUz", [[1], [1], [1]])]⟩, 3⟩

/-- A samples dictionary holding theta, lamUz and theta_native blocks. -/
def dW : SamplesDict :=
  [("theta", [[5], [9]]), ("lamUz", [[1], [2]]), ("theta_native", [[50], [90]])]

/-- A samples dictionary with a two-column theta block and three draws. -/
def dT : SamplesDict :=
  [("theta", [[5, 7], [9, 11], [13, 15]]), ("lamUz", [[1], [2], [4]])]

/-- A samples dictionary with theta and theta_native blocks only. -/
def dB : SamplesDict := [("theta", [[1], [1]]), ("theta_native", [[5], [5]])]

/-- A one-block samples dictionary used for the quantile-error trace. -/
def d9 : SamplesDict := [("x", [[1], [2]])]

/-- A one-block samples dictionary with two draws of a single parameter. -/
def d7 : SamplesDict := [("a", [[1], [3]])]

/-- A samples dictionary with no theta block. -/
def dNoTheta : SamplesDict := [("lamUz", [[1]])]

/-- A model with one principal component, p = q = 1, and one betaU draw. -/
def m8 : SepiaModel := ⟨⟨1, 1, 1, false⟩, ⟨[("betaU", [[2, 3]])]⟩, 1⟩

theorem corrMat_prodDesign {n1 n2 d1 d2 : ℕ} (A : Matrix (Fin n1) (Fin d1) ℝ)
    (B : Matrix (Fin n2) (Fin d2) ℝ) (beta : Fin (d1 + d2) → ℝ) :
    corrMat (prodDesign A B) beta =
      kronF (corrMat A (fun k => beta (Fin.castAdd d2 k)))
            (corrMat B (fun k => beta (Fin.natAdd d1 k))) := by
  funext r s
  simp only [corrMat, kronF, prodDesign, Matrix.of_apply]
  rw [Fin.sum_univ_add]
  simp only [Fin.addCases_left, Fin.addCases_right]
  rw [neg_add, Real.exp_add]

theorem emulatorLogLikSep_eq {n1 n2 d1 d2 pu : ℕ} (A : Matrix (Fin n1) (Fin d1) ℝ)
    (B : Matrix (Fin n2) (Fin d2) ℝ) (W : Matrix (Fin (n1 * n2)) (Fin pu) ℝ)
    (beta : Fin pu → Fin (d1 + d2) → ℝ) (lam : Fin pu → ℝ) (nug : ℝ) :
    emulatorLogLikSep A B W beta lam nug = emulatorLogLik (prodDesign A B) W beta lam nug := by
  unfold emulatorLogLik emulatorLogLikSep
  refine Finset.sum_congr rfl (fun i _ => ?_)
  rw [corrMat_prodDesign]

theorem prodDesign_map {α β : Type} (f : α → β) {n1 n2 d1 d2 : ℕ}
    (A : Matrix (Fin n1) (Fin d1) α) (B : Matrix (Fin n2) (Fin d2) α) :
    (prodDesign A B).map f = prodDesign (A.map f) (B.map f) := by
  funext r c
  simp only [Matrix.map_apply, prodDesign, Matrix.of_apply]
  induction c using Fin.addCases with
  | left c1 => simp [Fin.addCases_left]
  | right c2 => simp [Fin.addCases_right]

theorem xsimQ_eq_prodDesign : xsimQ = prodDesign x1Q x2Q := rfl

theorem castM_xsimQ : castM xsimQ = prodDesign (castM x1Q) (castM x2Q) := by
  rw [show castM xsimQ = castM (prodDesign x1Q x2Q) from congrArg castM xsimQ_eq_prodDesign]
  exact prodDesign_map _ _ _

theorem xsimCalQ_eq_prodDesign : xsimCalQ = prodDesign f0Q (prodDesign x1Q x2Q) := by
  funext r c
  fin_cases r <;> fin_cases c <;> rfl

theorem castM_xsimCalQ :
    castM xsimCalQ = prodDesign (castM f0Q) (prodDesign (castM x1Q) (castM x2Q)) := by
  rw [show castM xsimCalQ = castM (prodDesign f0Q (prodDesign x1Q x2Q)) from
    congrArg castM xsimCalQ_eq_prodDesign]
  rw [show castM (prodDesign f0Q (prodDesign x1Q x2Q))
      = prodDesign (castM f0Q) (castM (prodDesign x1Q x2Q)) from prodDesign_map _ _ _]
  rw [show castM (prodDesign x1Q x2Q) = prodDesign (castM x1Q) (castM x2Q) from
    prodDesign_map _ _ _]

/-- C1: for the simulation design of test_KronSetupLogLik.py (the 3-row by
4-row two-factor grid with an identity 2x2 K basis and columnwise
standardization), the spec-modelled `compute_log_lik` returns the same value
on the single-joint-matrix encoding and on the separable Kronecker-factor
encoding, both for the emulator-only model and for the corresponding
calibration model, for every value of the GP hyperparameters and calibration
parameters (exact real equality, hence equality within any floating
tolerance). -/
theorem c1_compute_log_lik_kron_equiv (betaE : Fin 2 → Fin 3 → ℝ) (lamE : Fin 2 → ℝ)
    (nugE : ℝ) (theta : Fin 2 → ℝ) (betaC : Fin 2 → Fin 4 → ℝ) (lamC : Fin 2 → ℝ)
    (nugC lamOsInv : ℝ) (lamV : Fin 2 → ℝ) :
    compute_log_lik_em_joint betaE lamE nugE = compute_log_lik_em_sep betaE lamE nugE ∧
    compute_log_lik_cal_joint theta betaC lamC nugC lamOsInv lamV
      = compute_log_lik_cal_sep theta betaC lamC nugC lamOsInv lamV := by
  constructor
  · unfold compute_log_lik_em_joint compute_log_lik_em_sep
    rw [castM_xsimQ, ← emulatorLogLikSep_eq]
  · unfold compute_log_lik_cal_joint compute_log_lik_cal_sep
    rw [castM_xsimCalQ]
    congr 1
    funext i
    rw [corrMat_prodDesign, corrMat_prodDesign]

theorem qinv_eq (b : ℚ) : qinv b = b⁻¹ := by
  unfold qinv
  rw [Rat.mkRat_eq_divInt, Rat.inv_def']
  rcases lt_trichotomy b.num 0 with h | h | h
  · rw [if_neg (by omega)]
    rw [show ((b.num.natAbs : ℕ) : ℤ) = -b.num from Int.ofNat_natAbs_of_nonpos (le_of_lt h)]
    exact Rat.neg_divInt_neg _ _
  · rw [if_pos (by omega), h]
    simp
  · rw [if_pos (by omega)]
    rw [Int.natAbs_of_nonneg (le_of_lt h)]

theorem qdiv_eq (a b : ℚ) : qdiv a b = a / b := by
  rw [qdiv, qinv_eq, div_eq_mul_inv]

theorem mapME_ok_forall {α β : Type} (f : α → Except String β) (P : β → Prop)
    (hf : ∀ x y, f x = .ok y → P y) :
    ∀ (l : List α) (ys : List β), mapME f l = .ok ys → ∀ y ∈ ys, P y := by
  intro l
  induction l with
  | nil =>
    intro ys h y hy
    simp only [mapME] at h
    cases h
    simp at hy
  | cons x xs ih =>
    intro ys h y hy
    simp only [mapME] at h
    cases hfx : f x with
    | error e => rw [hfx] at h; cases h
    | ok y0 =>
      rw [hfx] at h
      cases hrec : mapME f xs with
      | error e => rw [hrec] at h; cases h
      | ok ys0 =>
        rw [hrec] at h
        cases h
        rcases List.mem_cons.1 hy with rfl | hmem
        · exact hf x y hfx
        · exact ih ys0 hrec y hmem

theorem mapME_ok_map_proj {α β γ : Type} (f : α → Except String β) (proj : β → γ)
    (g : α → γ) (hf : ∀ x y, f x = .ok y → proj y = g x) :
    ∀ (l : List α) (ys : List β), mapME f l = .ok ys → ys.map proj = l.map g := by
  intro l
  induction l with
  | nil =>
    intro ys h
    simp only [mapME] at h
    cases h
    rfl
  | cons x xs ih =>
    intro ys h
    simp only [mapME] at h
    cases hfx : f x with
    | error e => rw [hfx] at h; cases h
    | ok y0 =>
      rw [hfx] at h
      cases hrec : mapME f xs with
      | error e => rw [hrec] at h; cases h
      | ok ys0 =>
        rw [hrec] at h
        cases h
        simp only [List.map_cons]
        rw [hf x y0 hfx, ih ys0 hrec]

/-- C3: plot_acf raises a ValueError whenever the requested lag count exceeds
the number of available samples, and raises a ValueError whenever alpha lies
outside the open interval (0,1); in both cases the call returns the raised
error, so the checks fire before any autocorrelation is computed. -/
theorem c3_plot_acf_validates (m : SepiaModel) (nlags nburn : ℕ) (alpha : ℚ) :
    (m.get_num_samples < nlags →
      plot_acf m nlags nburn alpha =
        .error "plot_acf: must have more samples than requested lag size") ∧
    ((alpha ≤ 0 ∨ 1 ≤ alpha) → ∃ msg, plot_acf m nlags nburn alpha = .error msg) := by
  constructor
  · intro h
    simp [plot_acf, h]
  · intro h
    by_cases h1 : m.get_num_samples < nlags
    · exact ⟨"plot_acf: must have more samples than requested lag size",
        by simp [plot_acf, h1]⟩
    · exact ⟨"alpha must be in (0,1)", by simp [plot_acf, h1, h]⟩

/-- Witness for C3: on a three-sample model, nlags = 5 raises the lag-size
error, and alpha = 2 raises an error. -/
theorem c3_plot_acf_validates_w :
    plot_acf cmValid 5 0 (mkRat 1 2) =
      .error "plot_acf: must have more samples than requested lag size" ∧
    ∃ msg, plot_acf cmValid 1 0 2 = .error msg :=
  ⟨(c3_plot_acf_validates cmValid 5 0 (mkRat 1 2)).1 (by decide),
   (c3_plot_acf_validates cmValid 1 0 2).2 (Or.inr (by norm_num))⟩

/-- C4 counterexample: on a sim-only model, plot_acf with nlags exceeding the
sample count raises a ValueError instead of reporting the handled None result,
so a theta-based diagnostic request on a sim-only model can raise. -/
theorem c4_sim_only_can_raise_cex :
    cmSim.num.sim_only = true ∧
    plot_acf cmSim 10 0 (mkRat 1 2) =
      .error "plot_acf: must have more samples than requested lag size" := by
  constructor
  · rfl
  · decide

/-- C4 (amended): provided nlags and alpha pass the validity checks that
precede the sim-only test, plot_acf on a sim-only model prints a message and
returns None rather than raising; theta_pairs on a samples dictionary lacking
the key theta prints a message and returns None unconditionally. -/
theorem c4_sim_only_handled (m : SepiaModel) (nlags nburn : ℕ) (alpha : ℚ)
    (s : SamplesDict) (dn : Option (List String)) (native : Bool)
    (lims : Option (List (ℚ × ℚ))) (tr : Option (List ℚ)) :
    (m.num.sim_only = true → nlags ≤ m.get_num_samples → 0 < alpha → alpha < 1 →
      plot_acf m nlags nburn alpha = .ok none) ∧
    (List.lookup "theta" s = none → theta_pairs s dn native lims tr = .ok none) := by
  constructor
  · intro hs h1 h2 h3
    have hno : ¬(alpha ≤ 0 ∨ 1 ≤ alpha) := by
      push_neg
      exact ⟨h2, h3⟩
    simp [plot_acf, Nat.not_lt.2 h1, hno, hs]
  · intro h
    simp [theta_pairs, h]

/-- Witness for C4: a sim-only model with valid nlags and alpha yields None,
and theta_pairs on a dictionary without theta yields None. -/
theorem c4_sim_only_handled_w :
    plot_acf cmSim 2 0 (mkRat 1 2) = .ok none ∧
    theta_pairs dNoTheta none false none none = .ok none :=
  ⟨(c4_sim_only_handled cmSim 2 0 (mkRat 1 2) dNoTheta none false none none).1
      rfl (by decide) (by decide) (by decide),
   (c4_sim_only_handled cmSim 2 0 (mkRat 1 2) dNoTheta none false none none).2 (by decide)⟩

/-- C5 counterexample: requesting theta-chain diagnostics (plot_acf) on a
sim-only model with valid nlags and alpha does not raise an error: it returns
the handled None result. -/
theorem c5_sim_only_does_not_raise_cex :
    cmSim.num.sim_only = true ∧
    plot_acf cmSim 1 0 (mkRat 1 2) = .ok none ∧
    (plot_acf cmSim 1 0 (mkRat 1 2)).isOk = true :=
  ⟨rfl, by decide, by decide⟩

/-- C5 (amended): requesting theta-chain diagnostics (plot_acf) on sim-only
data with valid nlags and alpha is reported as a handled, non-fatal condition:
the call prints a message and returns None, and never returns an error. -/
theorem c5_sim_only_reports_none (m : SepiaModel) (nlags nburn : ℕ) (alpha : ℚ)
    (hs : m.num.sim_only = true) (h1 : nlags ≤ m.get_num_samples)
    (h2 : 0 < alpha) (h3 : alpha < 1) :
    plot_acf m nlags nburn alpha = .ok none ∧
    ∀ msg, plot_acf m nlags nburn alpha ≠ .error msg := by
  have hno : ¬(alpha ≤ 0 ∨ 1 ≤ alpha) := by
    push_neg
    exact ⟨h2, h3⟩
  have hok : plot_acf m nlags nburn alpha = .ok none := by
    simp [plot_acf, Nat.not_lt.2 h1, hno, hs]
  refine ⟨hok, ?_⟩
  intro msg h
  rw [hok] at h
  cases h

/-- Witness for C5: the sim-only fixture with nlags = 3 and alpha = 1/2. -/
theorem c5_sim_only_reports_none_w :
    plot_acf cmSim 3 0 (mkRat 1 2) = .ok none ∧
    ∀ msg, plot_acf cmSim 3 0 (mkRat 1 2) ≠ .error msg :=
  c5_sim_only_reports_none cmSim 3 0 (mkRat 1 2) rfl (by decide) (by decide) (by decide)

/-- C10: the nburn parameter of plot_acf has no effect on the result — any two
nburn values give equal results — and on a non-sim-only model with valid nlags
and alpha the autocorrelation is computed over the full transposed theta chain,
with no burn-in samples discarded. -/
theorem c10_nburn_ignored (m : SepiaModel) (nlags nburn nburn2 : ℕ) (alpha : ℚ) :
    plot_acf m nlags nburn alpha = plot_acf m nlags nburn2 alpha ∧
    (∀ t, m.num.sim_only = false → nlags ≤ m.get_num_samples → 0 < alpha → alpha < 1 →
      (m.params.mcmcList.filter (fun p => p.1 == "theta")).getLast? = some t →
      plot_acf m nlags nburn alpha = .ok (some (acfFun (transposeL t.2) nlags alpha))) := by
  constructor
  · rfl
  · intro t hs h1 h2 h3 ht
    have hno : ¬(alpha ≤ 0 ∨ 1 ≤ alpha) := by
      push_neg
      exact ⟨h2, h3⟩
    simp [plot_acf, Nat.not_lt.2 h1, hno, hs, ht]

/-- Witness for C10: on the three-sample theta model, nburn = 0 and nburn = 7
give the same result, which is the autocorrelation of the full theta chain. -/
theorem c10_nburn_ignored_w :
    plot_acf cmValid 2 0 (mkRat 1 2) = plot_acf cmValid 2 7 (mkRat 1 2) ∧
    plot_acf cmValid 2 0 (mkRat 1 2) =
      .ok (some (acfFun (transposeL [[0], [1], [0]]) 2 (mkRat 1 2))) :=
  ⟨(c10_nburn_ignored cmValid 2 0 7 (mkRat 1 2)).1,
   (c10_nburn_ignored cmValid 2 0 7 (mkRat 1 2)).2 ("theta", [[0], [1], [0]])
      rfl (by decide) (by decide) (by decide) (by decide)⟩

theorem sliceMap_getD (g : ℚ → ℝ) (row : List ℚ) (s len j : ℕ) (hj : j < len)
    (hw : s + j < row.length) :
    (((row.map g).drop s).take len).getD j 0 = g (row.getD (s + j) 0) := by
  rw [List.getD_eq_getElem?_getD, List.getElem?_take, if_pos hj, List.getElem?_drop,
    List.getElem?_map, List.getElem?_eq_getElem hw, List.getD_eq_getElem?_getD,
    List.getElem?_eq_getElem hw]
  rfl

/-- C8: rho_box_plots succeeds whenever the model has a betaU block, produces
one panel per principal component, each panel groups at most p+q columns, and
every plotted value is exp(-betaU/4) of the corresponding betaU entry: panel i
plots columns (p+q)*i through (p+q)*i + (p+q) of exp(-betaU/4). -/
theorem c8_rho_exp_transform (m : SepiaModel) (labels : Option (List String))
    (bu : List (List ℚ)) (h : List.lookup "betaU" m.params.mcmcList = some bu)
    (i r j : ℕ) (hi : i < m.num.pu) (hr : r < bu.length) (hj : j < m.num.p + m.num.q)
    (hw : (m.num.p + m.num.q) * i + j < (bu.getD r []).length) :
    rho_box_plots m labels = .ok (rhoPanels m.num labels bu) ∧
    (rhoPanels m.num labels bu).length = m.num.pu ∧
    (∀ p ∈ rhoPanels m.num labels bu, ∀ row ∈ p.data, row.length ≤ m.num.p + m.num.q) ∧
    (((rhoPanels m.num labels bu).getD i ⟨[], none, ""⟩).data.getD r []).getD j 0
      = Real.exp (-(((bu.getD r []).getD ((m.num.p + m.num.q) * i + j) 0 : ℚ) : ℝ) / 4) := by
  refine ⟨by simp [rho_box_plots, h], by simp [rhoPanels], ?_, ?_⟩
  · intro p hp row hrow
    simp only [rhoPanels, List.mem_map] at hp
    obtain ⟨i0, _, rfl⟩ := hp
    simp only [List.mem_map] at hrow
    obtain ⟨row0, _, rfl⟩ := hrow
    exact le_trans (List.length_take_le _ _) (le_refl _)
  · have hpanel : (rhoPanels m.num labels bu).getD i ⟨[], none, ""⟩ =
        ⟨(bu.map (fun row => row.map (fun (b : ℚ) => Real.exp (-(b : ℝ) / 4)))).map
          (fun row => (row.drop ((m.num.p + m.num.q) * i)).take (m.num.p + m.num.q)),
          labels, "PC " ++ toString (i + 1)⟩ := by
      rw [rhoPanels]
      rw [List.getD_eq_getElem?_getD, List.getElem?_map]
      rw [show (List.range m.num.pu)[i]? = some i by
        simp [List.getElem?_range, hi]]
      rfl
    rw [hpanel]
    have hd : ((bu.map (fun row => row.map (fun (b : ℚ) => Real.exp (-(b : ℝ) / 4)))).map
        (fun row => (row.drop ((m.num.p + m.num.q) * i)).take (m.num.p + m.num.q))).getD r []
        = (((bu.getD r []).map (fun (b : ℚ) => Real.exp (-(b : ℝ) / 4))).drop
            ((m.num.p + m.num.q) * i)).take (m.num.p + m.num.q) := by
      rw [List.getD_eq_getElem?_getD, List.getElem?_map, List.getElem?_map,
        List.getElem?_eq_getElem hr, List.getD_eq_getElem?_getD, List.getElem?_eq_getElem hr]
      rfl
    rw [hd]
    exact sliceMap_getD _ _ _ _ _ hj hw

/-- Witness for C8: a model with p = q = pu = 1 and betaU draw [[2, 3]]; panel
0, row 0, column 1 plots exp(-3/4). -/
theorem c8_rho_exp_transform_w :
    rho_box_plots m8 none = .ok (rhoPanels m8.num none [[2, 3]]) ∧
    (rhoPanels m8.num none [[2, 3]]).length = m8.num.pu ∧
    (∀ p ∈ rhoPanels m8.num none [[2, 3]], ∀ row ∈ p.data,
      row.length ≤ m8.num.p + m8.num.q) ∧
    (((rhoPanels m8.num none [[2, 3]]).getD 0 ⟨[], none, ""⟩).data.getD 0 []).getD 1 0
      = Real.exp (-((([[2, 3]] : List (List ℚ)).getD 0 []).getD
          ((m8.num.p + m8.num.q) * 0 + 1) 0 : ℝ) / 4) :=
  c8_rho_exp_transform m8 none [[2, 3]] (by decide) 0 0 1 (by decide) (by decide)
    (by decide) (by decide)

theorem npQuantile_ok (xs : List ℚ) (q v : ℚ) (h : npQuantile xs q = .ok v) :
    v = quantileVal xs q := by
  unfold npQuantile at h
  split at h
  · cases h
  · injection h with h1
    exact h1.symm

theorem colStat_ok_fields (tn : Option (List String)) (q1 q2 : ℚ) (dg : ℕ) (c : StatCol)
    (r : StatRow) (h : colStat tn q1 q2 dg c = .ok r) :
    r.mean = npRound dg (npMean c.col) ∧ r.sd = npRoundR dg (npStd c.col) ∧
    r.q1v = npRound dg (quantileVal c.col q1) ∧ r.q2v = npRound dg (quantileVal c.col q2) := by
  unfold colStat at h
  cases h1 : npQuantile c.col q1 with
  | error e => rw [h1] at h; cases h
  | ok v1 =>
    rw [h1] at h
    cases h2 : npQuantile c.col q2 with
    | error e => rw [h2] at h; cases h
    | ok v2 =>
      rw [h2] at h
      cases h3 : keyOf tn c with
      | error e => rw [h3] at h; cases h
      | ok key =>
        rw [h3] at h
        injection h with h4
        subst h4
        exact ⟨rfl, rfl, by rw [npQuantile_ok c.col q1 v1 h1],
          by rw [npQuantile_ok c.col q2 v2 h2]⟩

theorem statColsGo_length (s : SamplesDict) :
    ∀ i, (statColsGo i s).length = (s.map (fun kv => blockWidth kv.2)).sum := by
  induction s with
  | nil => intro i; rfl
  | cons kv rest ih =>
    intro i
    simp [statColsGo, ih]

theorem statColsGo_keys (s : SamplesDict) :
    ∀ i, (statColsGo i s).map (fun c => c.key)
      = s.flatMap (fun kv => List.replicate (blockWidth kv.2) kv.1) := by
  induction s with
  | nil => intro i; rfl
  | cons kv rest ih =>
    intro i
    simp only [statColsGo, List.map_append, List.map_map, List.flatMap_cons, ih]
    congr 1
    rw [show ((fun c => StatCol.key c) ∘ fun j =>
        (⟨kv.1, i, j, blockWidth kv.2, columnOf kv.2 j⟩ : StatCol)) = fun _ => kv.1 from rfl]
    rw [List.map_const']
    simp

/-- C7: whenever param_stats returns a table, the table has one row per
parameter column of every block (the row count is the total column count over
all blocks), and its mean, standard deviation and quantile columns are exactly
the per-column sample mean, population standard deviation, q1-quantile and
q2-quantile, each rounded to the requested number of digits with numpy
ties-to-even rounding. -/
theorem c7_param_stats_table (s : SamplesDict) (tn : Option (List String)) (q1 q2 : ℚ)
    (dg : ℕ) (t : StatsTable) (h : param_stats s tn q1 q2 dg = .ok (some t)) :
    t.index.length = (statCols s).length ∧
    (statCols s).length = (s.map (fun kv => blockWidth kv.2)).sum ∧
    t.means = (statCols s).map (fun c => npRound dg (npMean c.col)) ∧
    t.sds = (statCols s).map (fun c => npRoundR dg (npStd c.col)) ∧
    t.q1s = (statCols s).map (fun c => npRound dg (quantileVal c.col q1)) ∧
    t.q2s = (statCols s).map (fun c => npRound dg (quantileVal c.col q2)) := by
  unfold param_stats at h
  split at h
  · simp at h
  · cases hm : mapME (colStat tn q1 q2 dg) (statCols s) with
    | error e => rw [hm] at h; cases h
    | ok rows =>
      rw [hm] at h
      injection h with h1
      injection h1 with h2
      subst h2
      have hmean : rows.map StatRow.mean
          = (statCols s).map (fun c => npRound dg (npMean c.col)) :=
        mapME_ok_map_proj _ _ _
          (fun x y hxy => (colStat_ok_fields tn q1 q2 dg x y hxy).1) _ _ hm
      have hlen : rows.length = (statCols s).length := by
        have := congrArg List.length hmean
        simpa using this
      refine ⟨by simpa using hlen, statColsGo_length s 0, hmean, ?_, ?_, ?_⟩
      · exact mapME_ok_map_proj _ _ _
          (fun x y hxy => (colStat_ok_fields tn q1 q2 dg x y hxy).2.1) _ _ hm
      · exact mapME_ok_map_proj _ _ _
          (fun x y hxy => (colStat_ok_fields tn q1 q2 dg x y hxy).2.2.1) _ _ hm
      · exact mapME_ok_map_proj _ _ _
          (fun x y hxy => (colStat_ok_fields tn q1 q2 dg x y hxy).2.2.2) _ _ hm

/-- Witness for C7: param_stats on a single block of two draws [[1], [3]] with
q1 = 0, q2 = 1 and 2 digits succeeds; the row count matches the column count,
and the three rational statistics evaluate to mean 2 and quantiles 1 and 3. -/
theorem c7_param_stats_table_w :
    (statCols d7).length = (d7.map (fun kv => blockWidth kv.2)).sum ∧
    (StatsTable.mk ["a"] [npRound 2 (npMean (columnOf [[1], [3]] 0))]
        [npRoundR 2 (npStd (columnOf [[1], [3]] 0))]
        [npRound 2 (quantileVal (columnOf [[1], [3]] 0) 0)]
        [npRound 2 (quantileVal (columnOf [[1], [3]] 0) 1)]).means
      = (statCols d7).map (fun c => npRound 2 (npMean c.col)) ∧
    npRound 2 (npMean (columnOf [[1], [3]] 0)) = 2 ∧
    npRound 2 (quantileVal (columnOf [[1], [3]] 0) 0) = 1 ∧
    npRound 2 (quantileVal (columnOf [[1], [3]] 0) 1) = 3 :=
  ⟨(c7_param_stats_table d7 none 0 1 2
      (StatsTable.mk ["a"] [npRound 2 (npMean (columnOf [[1], [3]] 0))]
        [npRoundR 2 (npStd (columnOf [[1], [3]] 0))]
        [npRound 2 (quantileVal (columnOf [[1], [3]] 0) 0)]
        [npRound 2 (quantileVal (columnOf [[1], [3]] 0) 1)]) rfl).2.1,
   (c7_param_stats_table d7 none 0 1 2
      (StatsTable.mk ["a"] [npRound 2 (npMean (columnOf [[1], [3]] 0))]
        [npRoundR 2 (npStd (columnOf [[1], [3]] 0))]
        [npRound 2 (quantileVal (columnOf [[1], [3]] 0) 0)]
        [npRound 2 (quantileVal (columnOf [[1], [3]] 0) 1)]) rfl).2.2.1,
   by norm_num [npRound, npMean, qdiv_eq, columnOf, roundHalfEvenZ, Rat.mkRat_eq_div],
   by norm_num [npRound, quantileVal, qdiv_eq, columnOf, roundHalfEvenZ, Rat.mkRat_eq_div,
     sortQ, insertSorted],
   by norm_num [npRound, quantileVal, qdiv_eq, columnOf, roundHalfEvenZ, Rat.mkRat_eq_div,
     sortQ, insertSorted]⟩

theorem colStat_q1_error (tn : Option (List String)) (q1 q2 : ℚ) (dg : ℕ) (c : StatCol)
    (hq : q1 < 0 ∨ 1 < q1) :
    colStat tn q1 q2 dg c = .error "Quantiles must be in the range 0 to 1" := by
  unfold colStat npQuantile
  rw [if_pos hq]

theorem colStat_q2_error (tn : Option (List String)) (q1 q2 : ℚ) (dg : ℕ) (c : StatCol)
    (hq1 : ¬(q1 < 0 ∨ 1 < q1)) (hq2 : q2 < 0 ∨ 1 < q2) :
    colStat tn q1 q2 dg c = .error "Quantiles must be in the range 0 to 1" := by
  unfold colStat npQuantile
  rw [if_neg hq1, if_pos hq2]

/-- C9 (amended): a q1 or q2 outside [0, 1] is not detected at entry to
param_stats: the loop runs and the first column's mean and standard deviation
are computed before the offending np.quantile call surfaces the ValueError to
the caller — with an invalid q1 the error follows the mean and std, and with a
valid q1 but invalid q2 it follows the mean, the std and the q1-quantile (so
the error is surfaced, never silently corrected, but not eagerly before any
computation). -/
theorem c9_quantile_error_mid_loop (s : SamplesDict) (tn : Option (List String))
    (q1 q2 : ℚ) (dg : ℕ) (c : StatCol) (rest : List StatCol)
    (hcols : statCols s = c :: rest) (hchk : thetaNamesReject s tn = false) :
    ((q1 < 0 ∨ 1 < q1) →
      param_stats s tn q1 q2 dg = .error "Quantiles must be in the range 0 to 1" ∧
      paramStatsEvents s tn q1 q2 =
        [PEvent.meanEv c.key c.colIdx, PEvent.sdEv c.key c.colIdx,
          PEvent.quantErrEv c.key c.colIdx q1]) ∧
    (¬(q1 < 0 ∨ 1 < q1) → (q2 < 0 ∨ 1 < q2) →
      param_stats s tn q1 q2 dg = .error "Quantiles must be in the range 0 to 1" ∧
      paramStatsEvents s tn q1 q2 =
        [PEvent.meanEv c.key c.colIdx, PEvent.sdEv c.key c.colIdx,
          PEvent.quantEv c.key c.colIdx q1, PEvent.quantErrEv c.key c.colIdx q2]) := by
  constructor
  · intro hq
    constructor
    · have hcol := colStat_q1_error tn q1 q2 dg c hq
      unfold param_stats
      rw [hcols]
      simp [hchk, mapME, hcol]
    · unfold paramStatsEvents
      rw [hcols]
      simp [hchk, eventsGo, colEvents, hq]
  · intro hq1 hq2
    constructor
    · have hcol := colStat_q2_error tn q1 q2 dg c hq1 hq2
      unfold param_stats
      rw [hcols]
      simp [hchk, mapME, hcol]
    · unfold paramStatsEvents
      rw [hcols]
      simp [hchk, eventsGo, colEvents, hq1, hq2]

/-- Witness for C9: on the one-block dictionary d9, with q1 = 2 param_stats
errors after computing the first column's mean and std, and with q1 = 0 and
q2 = 2 it errors after computing the mean, the std and the q1-quantile. -/
theorem c9_quantile_error_mid_loop_w :
    (param_stats d9 none 2 1 4 = .error "Quantiles must be in the range 0 to 1" ∧
      paramStatsEvents d9 none 2 1 =
        [PEvent.meanEv "x" 0, PEvent.sdEv "x" 0, PEvent.quantErrEv "x" 0 2]) ∧
    (param_stats d9 none 0 2 4 = .error "Quantiles must be in the range 0 to 1" ∧
      paramStatsEvents d9 none 0 2 =
        [PEvent.meanEv "x" 0, PEvent.sdEv "x" 0, PEvent.quantEv "x" 0 0,
          PEvent.quantErrEv "x" 0 2]) :=
  ⟨(c9_quantile_error_mid_loop d9 none 2 1 4 ⟨"x", 0, 0, 1, [1, 2]⟩ [] rfl rfl).1
      (Or.inr (by norm_num)),
   (c9_quantile_error_mid_loop d9 none 0 2 4 ⟨"x", 0, 0, 1, [1, 2]⟩ [] rfl rfl).2
      (by decide) (Or.inr (by norm_num))⟩

/-- C9 counterexample: neither an invalid q1 nor an invalid q2 is rejected
eagerly at call time: with q1 = 2 the event trace records the first column's
mean and standard deviation being computed before the quantile error, and with
q1 = 0, q2 = 2 it additionally records the q1-quantile being computed before
the error. -/
theorem c9_not_eager_cex :
    (1 : ℚ) < 2 ∧
    paramStatsEvents d9 none 2 1 =
      [PEvent.meanEv "x" 0, PEvent.sdEv "x" 0, PEvent.quantErrEv "x" 0 2] ∧
    param_stats d9 none 2 1 4 = .error "Quantiles must be in the range 0 to 1" ∧
    paramStatsEvents d9 none 0 2 =
      [PEvent.meanEv "x" 0, PEvent.sdEv "x" 0, PEvent.quantEv "x" 0 0,
        PEvent.quantErrEv "x" 0 2] ∧
    param_stats d9 none 0 2 4 = .error "Quantiles must be in the range 0 to 1" :=
  ⟨by norm_num, by decide, rfl, by decide, rfl⟩

/-- C6 (amended): theta_pairs raises a ValueError on a design-name list whose
length differs from the width of the selected theta block, and param_stats
prints a message and returns None on a wrong-length theta_names list, both
before any plotting or statistics computation; mcmc_trace, however, performs no
label-count validation (an over-long theta_names list is accepted silently, see
the counterexample). -/
theorem c6_label_length_checks (s : SamplesDict) (l : List String)
    (lims : Option (List (ℚ × ℚ))) (tr : Option (List ℚ)) (q1 q2 : ℚ) (dg : ℕ) :
    (∀ t, List.lookup "theta" s = some t → l.length ≠ blockWidth t →
      theta_pairs s (some l) false lims tr = .error "Design names wrong length") ∧
    (∀ t tnat, List.lookup "theta" s = some t → List.lookup "theta_native" s = some tnat →
      l.length ≠ blockWidth tnat →
      theta_pairs s (some l) true lims tr = .error "Design names wrong length") ∧
    (∀ t, List.lookup "theta" s = some t → l.length ≠ blockWidth t →
      param_stats s (some l) q1 q2 dg = .ok none) := by
  refine ⟨?_, ?_, ?_⟩
  · intro t ht hl
    simp [theta_pairs, ht, hl]
  · intro t tnat ht htn hl
    simp [theta_pairs, ht, htn, hl]
  · intro t ht hl
    simp [param_stats, thetaNamesReject, ht, hl]

/-- Witness for C6: wrong-length label lists are rejected by theta_pairs (both
native modes) and by param_stats on the concrete fixtures. -/
theorem c6_label_length_checks_w :
    theta_pairs dT (some ["a"]) false none none = .error "Design names wrong length" ∧
    theta_pairs dW (some ["a", "x"]) true none none = .error "Design names wrong length" ∧
    param_stats dT (some ["a"]) 0 1 4 = .ok none :=
  ⟨(c6_label_length_checks dT ["a"] none none 0 1 4).1 [[5, 7], [9, 11], [13, 15]]
      (by decide) (by decide),
   (c6_label_length_checks dW ["a", "x"] none none 0 1 4).2.1 [[5], [9]] [[50], [90]]
      (by decide) (by decide) (by decide),
   (c6_label_length_checks dT ["a"] none none 0 1 4).2.2 [[5, 7], [9, 11], [13, 15]]
      (by decide) (by decide)⟩

/-- C6 counterexample: mcmc_trace accepts a theta_names list longer than the
theta block width without any rejection: the call succeeds and plots normally,
so not every label-accepting entry point validates the label count. -/
theorem c6_mcmc_trace_unvalidated_cex :
    (["a", "b", "c"].length ≠ blockWidth [[5, 7], [9, 11], [13, 15]]) ∧
    mcmc_trace dT (some ["a", "b", "c"]) 0 none 500 true 10 =
      .ok [⟨"theta", "theta", [⟨some "a", [5, 9]⟩, ⟨some "b", [7, 11]⟩]⟩,
        ⟨"lamUz", "lamUz", [⟨none, [1, 2]⟩]⟩] :=
  ⟨by decide, by decide⟩


theorem groupPanel_key (tn : Option (List String)) (pidx : List ℕ) (mp na i : ℕ)
    (k : String) (a : List (List ℚ)) (p : TracePanel)
    (h : groupPanel tn pidx mp na i k a = .ok p) : p.key = k := by
  unfold groupPanel at h
  by_cases h0 : na ≤ i
  · rw [if_pos h0] at h
    cases h
  · rw [if_neg h0] at h
    dsimp only at h
    by_cases h1 : 1 < min (blockWidth a) mp
    · rw [if_pos h1] at h
      split at h
      · cases h
      · injection h with h2
        subst h2
        rfl
    · rw [if_neg h1] at h
      split at h
      · cases h
      · split at h
        · split at h
          · split at h
            · cases h
            · injection h with h2
              subst h2
              rfl
          · injection h with h2
            subst h2
            rfl
        · injection h with h2
          subst h2
          rfl

theorem byGroupPanels_no_native (tn : Option (List String)) (pidx : List ℕ) (mp na : ℕ) :
    ∀ (s : SamplesDict) (i : ℕ) (ps : List TracePanel),
      byGroupPanels tn pidx mp na i s = .ok ps → ∀ p ∈ ps, p.key ≠ "theta_native" := by
  intro s
  induction s with
  | nil =>
    intro i ps h p hp
    injection h with h1
    subst h1
    simp at hp
  | cons kv rest ih =>
    obtain ⟨k, a⟩ := kv
    intro i ps h p hp
    by_cases hk : k = "theta_native"
    · rw [byGroupPanels, if_pos hk] at h
      exact ih (i + 1) ps h p hp
    · rw [byGroupPanels, if_neg hk] at h
      cases hg : groupPanel tn pidx mp na i k a with
      | error e => rw [hg] at h; cases h
      | ok p0 =>
        rw [hg] at h
        cases hr : byGroupPanels tn pidx mp na (i + 1) rest with
        | error e => rw [hr] at h; cases h
        | ok ps0 =>
          rw [hr] at h
          injection h with h1
          subst h1
          rcases List.mem_cons.1 hp with rfl | hmem
          · rw [groupPanel_key tn pidx mp na i k a p hg]
            exact hk
          · exact ih (i + 1) ps0 hr p hmem

theorem flatBlockPanels_keys (tn : Option (List String)) (pidx : List ℕ) (mp : ℕ)
    (k : String) (a : List (List ℚ)) (ps : List TracePanel)
    (h : flatBlockPanels tn pidx mp k a = .ok ps) : ∀ p ∈ ps, p.key = k := by
  unfold flatBlockPanels at h
  by_cases h1 : 1 < min (blockWidth a) mp
  · rw [if_pos h1] at h
    refine mapME_ok_forall _ (fun p => p.key = k) ?_ _ _ h
    intro x y hxy
    split at hxy
    · cases hxy
    · split at hxy
      · split at hxy
        · split at hxy
          · cases hxy
          · injection hxy with h2
            subst h2
            rfl
        · injection hxy with h2
          subst h2
          rfl
      · injection hxy with h2
        subst h2
        rfl
  · rw [if_neg h1] at h
    split at h
    · cases h
    · split at h
      · split at h
        · split at h
          · cases h
          · injection h with h2
            subst h2
            intro p hp
            simp at hp
            subst hp
            rfl
        · injection h with h2
          subst h2
          intro p hp
          simp at hp
          subst hp
          rfl
      · injection h with h2
        subst h2
        intro p hp
        simp at hp
        subst hp
        rfl

theorem flatPanels_no_native (tn : Option (List String)) (pidx : List ℕ) (mp : ℕ) :
    ∀ (s : SamplesDict) (ps : List TracePanel),
      flatPanels tn pidx mp s = .ok ps → ∀ p ∈ ps, p.key ≠ "theta_native" := by
  intro s
  induction s with
  | nil =>
    intro ps h p hp
    injection h with h1
    subst h1
    simp at hp
  | cons kv rest ih =>
    obtain ⟨k, a⟩ := kv
    intro ps h p hp
    by_cases hk : k = "theta_native"
    · rw [flatPanels, if_pos hk] at h
      exact ih ps h p hp
    · rw [flatPanels, if_neg hk] at h
      cases hg : flatBlockPanels tn pidx mp k a with
      | error e => rw [hg] at h; cases h
      | ok ps1 =>
        rw [hg] at h
        cases hr : flatPanels tn pidx mp rest with
        | error e => rw [hr] at h; cases h
        | ok ps2 =>
          rw [hr] at h
          injection h with h1
          subst h1
          rcases List.mem_append.1 hp with hmem | hmem
          · rw [flatBlockPanels_keys tn pidx mp k a ps1 hg p hmem]
            exact hk
          · exact ih ps2 hr p hmem

theorem buildPairs_data (th : List (List ℚ)) (names : List String)
    (lims : Option (List (ℚ × ℚ))) (refs : Option (List ℚ)) (fig : PairsFig)
    (h : buildPairs th names lims refs = .ok (some fig)) :
    fig.data = (thinIdx th.length).map (fun t => th.getD t []) := by
  unfold buildPairs at h
  cases hm : mapME (fun t => pyIdx th t "IndexError: thin index") (thinIdx th.length) with
  | error e => rw [hm] at h; cases h
  | ok rows =>
    rw [hm] at h
    injection h with h1
    injection h1 with h2
    subst h2
    have hmap := mapME_ok_map_proj (fun t => pyIdx th t "IndexError: thin index") id
      (fun t => th.getD t []) ?_ _ _ hm
    · simpa using hmap
    · intro x y hxy
      dsimp only at hxy
      unfold pyIdx at hxy
      cases hg : th.get? x with
      | none => rw [hg] at hxy; cases hxy
      | some v =>
        rw [hg] at hxy
        injection hxy with h3
        subst h3
        rw [List.get?_eq_getElem?] at hg
        simp [List.getD_eq_getElem?_getD, hg]

/-- C2 (amended): mcmc_trace never plots a theta_native panel (in either
grouping mode), and theta_pairs reads the theta_native block exactly when
native=True is requested (its plotted data come from theta_native when
native=True and from theta when native=False); param_stats, however, iterates
over every block including theta_native, so theta_native columns do appear in
its statistics table (see the counterexample). -/
theorem c2_theta_native_handling (s : SamplesDict) (tn : Option (List String)) (st : ℤ)
    (eo : Option ℤ) (ntp mp : ℕ) (bg : Bool) (dn : Option (List String))
    (lims : Option (List (ℚ × ℚ))) (tr : Option (List ℚ)) :
    (∀ fig, mcmc_trace s tn st eo ntp bg mp = .ok fig → ∀ p ∈ fig, p.key ≠ "theta_native") ∧
    (∀ t tnat fig, List.lookup "theta" s = some t →
      List.lookup "theta_native" s = some tnat →
      theta_pairs s dn true lims tr = .ok (some fig) →
      fig.data = (thinIdx tnat.length).map (fun i => tnat.getD i [])) ∧
    (∀ t fig, List.lookup "theta" s = some t →
      theta_pairs s dn false lims tr = .ok (some fig) →
      fig.data = (thinIdx t.length).map (fun i => t.getD i [])) ∧
    (statCols s).map (fun c => c.key)
      = s.flatMap (fun kv => List.replicate (blockWidth kv.2) kv.1) := by
  refine ⟨?_, ?_, ?_, statColsGo_keys s 0⟩
  · intro fig h p hp
    cases hlam : List.lookup "lamUz" s with
    | none =>
      rw [mcmc_trace, hlam] at h
      cases h
    | some lam =>
      rw [mcmc_trace, hlam] at h
      dsimp only at h
      split at h
      · cases h
      · split at h
        · cases h
        · split at h
          · exact byGroupPanels_no_native tn _ mp _ s 0 fig h p hp
          · exact flatPanels_no_native tn _ mp s fig h p hp
  · intro t tnat fig ht htn h
    unfold theta_pairs at h
    rw [ht] at h
    rw [Option.isNone_some, if_neg (by decide), if_pos rfl, htn] at h
    dsimp only at h
    cases dn with
    | none =>
      dsimp only at h
      exact buildPairs_data _ _ _ _ _ h
    | some l =>
      dsimp only at h
      by_cases hlen : l.length ≠ blockWidth tnat
      · rw [if_pos hlen] at h
        cases h
      · rw [if_neg hlen] at h
        exact buildPairs_data _ _ _ _ _ h
  · intro t fig ht h
    unfold theta_pairs at h
    rw [ht] at h
    rw [Option.isNone_some, if_neg (by decide), if_neg (by decide)] at h
    dsimp only at h
    cases dn with
    | none =>
      dsimp only at h
      exact buildPairs_data _ _ _ _ _ h
    | some l =>
      dsimp only at h
      by_cases hlen : l.length ≠ blockWidth t
      · rw [if_pos hlen] at h
        cases h
      · rw [if_neg hlen] at h
        exact buildPairs_data _ _ _ _ _ h

/-- Witness for C2: on the fixture with theta, lamUz and theta_native blocks,
the trace figure holds only theta and lamUz panels, the native pairs plot draws
the theta_native draws, the non-native pairs plot draws the theta draws, and
the param_stats iteration covers all three blocks. -/
theorem c2_theta_native_handling_w :
    (∀ p ∈ [(⟨"theta", "theta", [⟨none, [5]⟩]⟩ : TracePanel),
        ⟨"lamUz", "lamUz", [⟨none, [1]⟩]⟩], p.key ≠ "theta_native") ∧
    (PairsFig.mk ["theta_1"] [[50]] none none).data
      = (thinIdx ([[50], [90]] : List (List ℚ)).length).map
          (fun i => ([[50], [90]] : List (List ℚ)).getD i []) ∧
    (PairsFig.mk ["theta_1"] [[5]] (some [((0 : ℚ), (1 : ℚ))]) none).data
      = (thinIdx ([[5], [9]] : List (List ℚ)).length).map
          (fun i => ([[5], [9]] : List (List ℚ)).getD i []) ∧
    (statCols dW).map (fun c => c.key)
      = dW.flatMap (fun kv => List.replicate (blockWidth kv.2) kv.1) :=
  ⟨(c2_theta_native_handling dW none 0 none 500 10 true none none none).1 _ (by decide),
   (c2_theta_native_handling dW none 0 none 500 10 true none none none).2.1
      [[5], [9]] [[50], [90]] (PairsFig.mk ["theta_1"] [[50]] none none)
      (by decide) (by decide) (by decide),
   (c2_theta_native_handling dW none 0 none 500 10 true none none none).2.2.1
      [[5], [9]] (PairsFig.mk ["theta_1"] [[5]] (some [((0 : ℚ), (1 : ℚ))]) none)
      (by decide) (by decide),
   (c2_theta_native_handling dW none 0 none 500 10 true none none none).2.2.2⟩

/-- C2 counterexample: param_stats does not skip theta_native — on a dictionary
with theta and theta_native blocks its table has a row labelled theta_native. -/
theorem c2_param_stats_includes_theta_native_cex :
    Except.map (Option.map StatsTable.index) (param_stats dB none 0 1 4)
      = .ok (some ["theta", "theta_native"]) := rfl
